import Mathlib

/-!
Verification of the value-to-visitor adaptation core of `serde::de::value`
(`src/serde/src/de/value.rs`): the minimal error type, the sequence, map and
pair adapters with their length accounting, and the unit-only enum-variant
access object.

Adapters in the source are generic over any error type `E : de::Error`; the
error capability (construct from a message, `invalid_length`, `invalid_type`)
is embedded as the free inductive model `DeError` below, recording exactly the
arguments the adapters pass to each constructor.  Iterators are embedded as
Lean lists (the source fuses every iterator on construction, so the list of
remaining items is a faithful state).  Seeds (`DeserializeSeed`) become
functions from the wrapped item to `Except DeError β`, and visitors become
functions from the access object's state to a result together with the final
state, mirroring `&mut self` threading.
-/

namespace SerdeDeValue

/-- The unexpected-kind tag passed to `Error::invalid_type`
(`de::Unexpected::UnitVariant` is the only one used by this module). -/
inductive Unexpected where
  | unitVariant
deriving DecidableEq

/-- Modelled from the spec: the `Display` rendering of
`de::Unexpected::UnitVariant` (the `Display` impl for `Unexpected` lives in
`de/mod.rs`, outside the sources); §4.9 gives the message text
"invalid type: unit variant, expected ...". -/
def Unexpected.fmt : Unexpected → String
  | .unitVariant => "unit variant"

/-- Free model of the `de::Error` capability the adapters are generic over:
`custom` a message, `invalid_length` (actual length, rendered expected-length
descriptor) and `invalid_type` (unexpected kind, expected-kind descriptor). -/
inductive DeError where
  | custom : String → DeError
  | invalidLength : Nat → String → DeError
  | invalidType : Unexpected → String → DeError
deriving DecidableEq

/-- The concrete `serde::de::value::Error` in the full-capability (`std`)
build: a boxed message string. -/
structure Error where
  err : String
deriving DecidableEq

/-- `de::Error::custom` for `value::Error` (`std` build): stores the displayed
message (`msg.to_string().into_boxed_str()`); displayable messages are
embedded as the strings they display to. -/
def Error.custom (msg : String) : Error := Error.mk msg

/-- `Display for Error` (`std` build): `formatter.write_str(&self.err)`. -/
def Error.display (e : Error) : String := e.err

/-- `ExpectedInSeq(n)` as rendered by its `Expected::fmt` impl:
"1 element in sequence" when `n = 1`, otherwise "n elements in sequence". -/
def ExpectedInSeq.fmt (n : Nat) : String :=
  if n = 1 then "1 element in sequence" else toString n ++ " elements in sequence"

/-- `ExpectedInMap(n)` as rendered by its `Expected::fmt` impl. -/
def ExpectedInMap.fmt (n : Nat) : String :=
  if n = 1 then "1 element in map" else toString n ++ " elements in map"

/-- `SeqDeserializer`: a fused iterator (list of remaining items) plus the
count of elements already handed to the visitor. -/
structure SeqDeserializer (α : Type) where
  iter : List α
  count : Nat
deriving DecidableEq

/-- `SeqDeserializer::new`: fuse the iterator, count starts at 0. -/
def SeqDeserializer.new (l : List α) : SeqDeserializer α :=
  SeqDeserializer.mk l 0

/-- `SeqDeserializer::end`: drain the remaining items, counting them; fail
with `invalid_length(count + remaining, ExpectedInSeq(count))` when any
remain. -/
def SeqDeserializer.«end» (s : SeqDeserializer α) : Except DeError Unit :=
  let remaining := s.iter.length
  if remaining = 0 then Except.ok ()
  else Except.error (DeError.invalidLength (s.count + remaining) (ExpectedInSeq.fmt s.count))

/-- `SeqAccess::next_element_seed` for `SeqDeserializer`: advance the
iterator, bump the count, decode the yielded item with the seed. -/
def SeqDeserializer.next_element_seed (s : SeqDeserializer α)
    (seed : α → Except DeError β) :
    Except DeError (Option β) × SeqDeserializer α :=
  match s.iter with
  | [] => (Except.ok none, s)
  | x :: rest =>
    let s' : SeqDeserializer α := SeqDeserializer.mk rest (s.count + 1)
    match seed x with
    | Except.ok v => (Except.ok (some v), s')
    | Except.error e => (Except.error e, s')

/-- `SeqDeserializer::deserialize_any`: hand the access object to the
visitor's `visit_seq`, then perform the end check. -/
def SeqDeserializer.deserialize_any (s : SeqDeserializer α)
    (visit_seq : SeqDeserializer α → Except DeError γ × SeqDeserializer α) :
    Except DeError γ :=
  match visit_seq s with
  | (Except.ok v, s') =>
    match s'.«end» with
    | Except.ok _ => Except.ok v
    | Except.error e => Except.error e
  | (Except.error e, _) => Except.error e

/-- Model of a Visitor that drives `SeqAccess::next_element_seed` up to `k`
times, collecting the decoded elements (stopping early on exhaustion or on a
decode error).  Visitors are external collaborators (spec §6); this is the
canonical "consume `k` elements" visitor the testable properties quantify
over. -/
def SeqDeserializer.consumeN (seed : α → Except DeError β) :
    Nat → SeqDeserializer α → Except DeError (List β) × SeqDeserializer α
  | 0, s => (Except.ok [], s)
  | Nat.succ k, s =>
    match s.next_element_seed seed with
    | (Except.ok none, s') => (Except.ok [], s')
    | (Except.ok (some v), s') =>
      match SeqDeserializer.consumeN seed k s' with
      | (Except.ok vs, s'') => (Except.ok (v :: vs), s'')
      | (Except.error e, s'') => (Except.error e, s'')
    | (Except.error e, s') => (Except.error e, s')

/-- Outcome of a fallible call that may also abort the program: `ok` / `err`
mirror `Result`, while `fatal` models a Rust panic (a diagnostic abort that is
not a recoverable error value). -/
inductive Outcome (β : Type) where
  | ok : β → Outcome β
  | err : DeError → Outcome β
  | fatal : String → Outcome β
deriving DecidableEq

/-- `MapDeserializer`: a fused iterator of key/value pairs, the cached-value
slot, and the count of pairs already consumed. -/
structure MapDeserializer (κ ν : Type) where
  iter : List (κ × ν)
  value : Option ν
  count : Nat
deriving DecidableEq

/-- `MapDeserializer::new`: fuse the iterator, empty slot, count 0. -/
def MapDeserializer.new (l : List (κ × ν)) : MapDeserializer κ ν :=
  MapDeserializer.mk l none 0

/-- `MapDeserializer::end`: drain remaining pairs; fail with
`invalid_length(count + remaining, ExpectedInMap(count))` when any remain. -/
def MapDeserializer.«end» (s : MapDeserializer κ ν) : Except DeError Unit :=
  let remaining := s.iter.length
  if remaining = 0 then Except.ok ()
  else Except.error (DeError.invalidLength (s.count + remaining) (ExpectedInMap.fmt s.count))

/-- `MapDeserializer::next_pair`: advance the iterator, bump the count, and
split the yielded item into its key and value (`Pair::split` on a 2-tuple is
the identity). -/
def MapDeserializer.next_pair (s : MapDeserializer κ ν) :
    Option (κ × ν) × MapDeserializer κ ν :=
  match s.iter with
  | [] => (none, s)
  | kv :: rest => (some kv, MapDeserializer.mk rest s.value (s.count + 1))

/-- `MapAccess::next_key_seed`: fetch the next pair, cache its value in the
slot, then decode the key with the seed. -/
def MapDeserializer.next_key_seed (s : MapDeserializer κ ν)
    (kseed : κ → Except DeError β) :
    Except DeError (Option β) × MapDeserializer κ ν :=
  match s.next_pair with
  | (some (k, v), s') =>
    let s'' : MapDeserializer κ ν := MapDeserializer.mk s'.iter (some v) s'.count
    match kseed k with
    | Except.ok b => (Except.ok (some b), s'')
    | Except.error e => (Except.error e, s'')
  | (none, s') => (Except.ok none, s')

/-- `MapAccess::next_value_seed`: take the cached value out of the slot; if
the slot is empty this is a panic ("MapAccess::visit_value called before
visit_key"), not a recoverable error; otherwise decode the value with the
seed. -/
def MapDeserializer.next_value_seed (s : MapDeserializer κ ν)
    (vseed : ν → Except DeError γ) :
    Outcome γ × MapDeserializer κ ν :=
  match s.value with
  | none => (Outcome.fatal "MapAccess::visit_value called before visit_key",
             MapDeserializer.mk s.iter none s.count)
  | some v =>
    let s' : MapDeserializer κ ν := MapDeserializer.mk s.iter none s.count
    match vseed v with
    | Except.ok c => (Outcome.ok c, s')
    | Except.error e => (Outcome.err e, s')

/-- `MapAccess::next_entry_seed`: fetch the next pair and decode key then
value in one call, never touching the cached-value slot. -/
def MapDeserializer.next_entry_seed (s : MapDeserializer κ ν)
    (kseed : κ → Except DeError β) (vseed : ν → Except DeError γ) :
    Except DeError (Option (β × γ)) × MapDeserializer κ ν :=
  match s.next_pair with
  | (some (k, v), s') =>
    match kseed k with
    | Except.error e => (Except.error e, s')
    | Except.ok b =>
      match vseed v with
      | Except.error e => (Except.error e, s')
      | Except.ok c => (Except.ok (some (b, c)), s')
  | (none, s') => (Except.ok none, s')

/-- `PairDeserializer(A, B, PhantomData)`: one key and one value, decoded as
a 2-element sequence. -/
structure PairDeserializer (α β : Type) where
  first : α
  second : β
deriving DecidableEq

/-- `PairVisitor(Option<A>, Option<B>, PhantomData)`: the two optional slots
backing the pair's 2-element sequence view. -/
structure PairVisitor (α β : Type) where
  fst : Option α
  snd : Option β
deriving DecidableEq

/-- `SeqAccess::next_element_seed` for `PairVisitor`: take the key slot if
still present, else the value slot, else yield end-of-sequence.  The single
Rust seed decodes either component's deserializer; it is embedded as one
function per component type. -/
def PairVisitor.next_element_seed (p : PairVisitor α β)
    (kseed : α → Except DeError γ) (vseed : β → Except DeError γ) :
    Except DeError (Option γ) × PairVisitor α β :=
  match p.fst with
  | some k =>
    let p' : PairVisitor α β := PairVisitor.mk none p.snd
    match kseed k with
    | Except.ok c => (Except.ok (some c), p')
    | Except.error e => (Except.error e, p')
  | none =>
    match p.snd with
    | some v =>
      let p' : PairVisitor α β := PairVisitor.mk none none
      match vseed v with
      | Except.ok c => (Except.ok (some c), p')
      | Except.error e => (Except.error e, p')
    | none => (Except.ok none, p)

/-- `SeqAccess::size_hint` for `PairVisitor`: 2 with the key still present,
1 with only the value, 0 with both taken. -/
def PairVisitor.size_hint (p : PairVisitor α β) : Option Nat :=
  if p.fst.isSome then some 2
  else if p.snd.isSome then some 1
  else some 0

/-- `PairDeserializer::deserialize_seq`: run the visitor on a fresh
`PairVisitor`; succeed when the value slot was taken, otherwise fail with
`invalid_length(2, ExpectedInSeq(2 - size_hint))`.  (`size_hint` always
returns `some`, so the `unwrap` in the source cannot panic; the `none` arm
below is unreachable.) -/
def PairDeserializer.deserialize_seq (d : PairDeserializer α β)
    (visitor : PairVisitor α β → Except DeError γ × PairVisitor α β) :
    Except DeError γ :=
  let pv : PairVisitor α β := PairVisitor.mk (some d.first) (some d.second)
  match visitor pv with
  | (Except.error e, _) => Except.error e
  | (Except.ok pair, pv') =>
    if pv'.snd.isNone then Except.ok pair
    else
      match pv'.size_hint with
      | some remaining =>
        Except.error (DeError.invalidLength 2 (ExpectedInSeq.fmt (2 - remaining)))
      | none => Except.error (DeError.custom "unreachable: size_hint is always Some")

/-- `PairDeserializer::deserialize_seq_fixed_size`: length 2 delegates to
`deserialize_seq`; any other length fails with
`invalid_length(2, ExpectedInSeq(len))` without invoking the visitor. -/
def PairDeserializer.deserialize_seq_fixed_size (d : PairDeserializer α β)
    (len : Nat)
    (visitor : PairVisitor α β → Except DeError γ × PairVisitor α β) :
    Except DeError γ :=
  if len = 2 then d.deserialize_seq visitor
  else Except.error (DeError.invalidLength 2 (ExpectedInSeq.fmt len))

/-- `SeqAccess::next_element_seed` for `MapDeserializer` (sequence mode):
fetch the next pair and hand it to the seed as a `PairDeserializer`. -/
def MapDeserializer.seq_next_element_seed (s : MapDeserializer κ ν)
    (seed : PairDeserializer κ ν → Except DeError γ) :
    Except DeError (Option γ) × MapDeserializer κ ν :=
  match s.next_pair with
  | (some (k, v), s') =>
    match seed (PairDeserializer.mk k v) with
    | Except.ok c => (Except.ok (some c), s')
    | Except.error e => (Except.error e, s')
  | (none, s') => (Except.ok none, s')

/-- `MapDeserializer::deserialize_seq`: hand the access object to the
visitor's `visit_seq`, then perform the end check. -/
def MapDeserializer.deserialize_seq (s : MapDeserializer κ ν)
    (visitor : MapDeserializer κ ν → Except DeError γ × MapDeserializer κ ν) :
    Except DeError γ :=
  match visitor s with
  | (Except.ok v, s') =>
    match s'.«end» with
    | Except.ok _ => Except.ok v
    | Except.error e => Except.error e
  | (Except.error e, _) => Except.error e

/-- `private::UnitOnly<E>`: the unit-only enum-variant access object (only a
phantom error marker at runtime). -/
structure UnitOnly where
  mkUnitOnly ::
deriving DecidableEq

/-- `VariantAccess::deserialize_unit` for `UnitOnly`: always succeeds. -/
def UnitOnly.deserialize_unit (_u : UnitOnly) : Except DeError Unit :=
  Except.ok ()

/-- `VariantAccess::deserialize_newtype_seed` for `UnitOnly`: always
`invalid_type(Unexpected::UnitVariant, "newtype variant")`; the seed is
never used. -/
def UnitOnly.deserialize_newtype_seed {σ γ : Type} (_u : UnitOnly) (_seed : σ) :
    Except DeError γ :=
  Except.error (DeError.invalidType Unexpected.unitVariant "newtype variant")

/-- `VariantAccess::deserialize_tuple` for `UnitOnly`: always
`invalid_type(Unexpected::UnitVariant, "tuple variant")`; length and visitor
are never used. -/
def UnitOnly.deserialize_tuple {τ γ : Type} (_u : UnitOnly) (_len : Nat) (_visitor : τ) :
    Except DeError γ :=
  Except.error (DeError.invalidType Unexpected.unitVariant "tuple variant")

/-- `VariantAccess::deserialize_struct` for `UnitOnly`: always
`invalid_type(Unexpected::UnitVariant, "struct variant")`; fields and visitor
are never used. -/
def UnitOnly.deserialize_struct {τ γ : Type} (_u : UnitOnly) (_fields : List String)
    (_visitor : τ) : Except DeError γ :=
  Except.error (DeError.invalidType Unexpected.unitVariant "struct variant")

/-! ## Visitor and driver harness

Visitors and the code driving `MapAccess` are external collaborators (spec
§6); the definitions below are the canonical interaction programs the claims
quantify over, built exclusively from the access operations above. -/

/-- The state change `PairVisitor::next_element_seed` performs, which is
independent of the seed: take the key slot first, then the value slot. -/
def PairVisitor.stepState (p : PairVisitor α β) : PairVisitor α β :=
  match p.fst with
  | some _ => PairVisitor.mk none p.snd
  | none =>
    match p.snd with
    | some _ => PairVisitor.mk none none
    | none => p

/-- Model of a Visitor that drives `PairVisitor` via `next_element_seed` up
to `fuel` times, collecting the decoded elements. -/
def PairVisitor.drain (kseed : α → Except DeError γ) (vseed : β → Except DeError γ) :
    Nat → PairVisitor α β → Except DeError (List γ) × PairVisitor α β
  | 0, p => (Except.ok [], p)
  | Nat.succ fuel, p =>
    match p.next_element_seed kseed vseed with
    | (Except.ok none, p') => (Except.ok [], p')
    | (Except.ok (some x), p') =>
      match PairVisitor.drain kseed vseed fuel p' with
      | (Except.ok xs, p'') => (Except.ok (x :: xs), p'')
      | (Except.error e, p'') => (Except.error e, p'')
    | (Except.error e, p') => (Except.error e, p')

/-- Seed for sequence-mode map decoding: decode one `PairDeserializer` as a
2-element sequence whose flat elements are tagged key (`Sum.inl`) or value
(`Sum.inr`). -/
def pairFlatSeed (d : PairDeserializer κ ν) : Except DeError (List (κ ⊕ ν)) :=
  d.deserialize_seq
    (fun p => PairVisitor.drain (fun a => Except.ok (Sum.inl a))
      (fun b => Except.ok (Sum.inr b)) 3 p)

/-- Model of a Visitor that drives the map adapter's sequence view to
exhaustion (up to `fuel` calls), concatenating each pair's flat elements. -/
def mapSeqDrain (fuel : Nat) (s : MapDeserializer κ ν) :
    Except DeError (List (κ ⊕ ν)) × MapDeserializer κ ν :=
  match fuel with
  | 0 => (Except.ok [], s)
  | Nat.succ fuel =>
    match s.seq_next_element_seed pairFlatSeed with
    | (Except.ok none, s') => (Except.ok [], s')
    | (Except.ok (some xs), s') =>
      match mapSeqDrain fuel s' with
      | (Except.ok rest, s'') => (Except.ok (xs ++ rest), s'')
      | (Except.error e, s'') => (Except.error e, s'')
    | (Except.error e, s') => (Except.error e, s')

/-- The flat key, value, key, value, ... element list a key/value list
presents in sequence mode. -/
def flatPairs : List (κ × ν) → List (κ ⊕ ν)
  | [] => []
  | (k, v) :: rest => Sum.inl k :: Sum.inr v :: flatPairs rest

/-- One call a driver can make on the map adapter's `MapAccess` face. -/
inductive MapCall where
  | nextKey
  | nextValue
  | nextEntry
deriving DecidableEq

/-- Run a sequence of `MapAccess` calls against the adapter, threading the
state (results are discarded; the state change of each call does not depend
on the seed outcomes). -/
def MapDeserializer.run (ks : κ → Except DeError β) (vs : ν → Except DeError γ) :
    List MapCall → MapDeserializer κ ν → MapDeserializer κ ν
  | [], s => s
  | c :: cs, s =>
    let s' : MapDeserializer κ ν :=
      match c with
      | MapCall.nextKey => (s.next_key_seed ks).2
      | MapCall.nextValue => (s.next_value_seed vs).2
      | MapCall.nextEntry => (s.next_entry_seed ks vs).2
    MapDeserializer.run ks vs cs s'

/-- Run a sequence of `MapAccess` calls, stopping with `none` as soon as a
call aborts (panics); `some` final state means the abort branch was never
reached. -/
def MapDeserializer.runChecked (ks : κ → Except DeError β) (vs : ν → Except DeError γ) :
    List MapCall → MapDeserializer κ ν → Option (MapDeserializer κ ν)
  | [], s => some s
  | c :: cs, s =>
    match c with
    | MapCall.nextKey => MapDeserializer.runChecked ks vs cs (s.next_key_seed ks).2
    | MapCall.nextValue =>
      match (s.next_value_seed vs).1 with
      | Outcome.fatal _ => none
      | _ => MapDeserializer.runChecked ks vs cs (s.next_value_seed vs).2
    | MapCall.nextEntry => MapDeserializer.runChecked ks vs cs (s.next_entry_seed ks vs).2

/-- Specification automaton for the cached-value slot, written from the
spec's words: the slot is pending (non-empty) exactly from a successful key
fetch (a pair was present) until the following value fetch; `next_entry`
consumes a pair but leaves the pending flag alone.  Arguments: remaining
trace, number of pairs left in the iterator, current pending flag. -/
def slotPendingSpec : List MapCall → Nat → Bool → Bool
  | [], _, pending => pending
  | MapCall.nextKey :: t, n, pending =>
    match n with
    | 0 => slotPendingSpec t 0 pending
    | Nat.succ m => slotPendingSpec t m true
  | MapCall.nextValue :: t, n, _ => slotPendingSpec t n false
  | MapCall.nextEntry :: t, n, pending =>
    match n with
    | 0 => slotPendingSpec t 0 pending
    | Nat.succ m => slotPendingSpec t m pending

/-- The key-before-value protocol (spec §4.6), written from the spec's
words: every `next_value` call must find a value pending from a prior
successful `next_key`. -/
def protocolOk : List MapCall → Nat → Bool → Bool
  | [], _, _ => true
  | MapCall.nextKey :: t, n, pending =>
    match n with
    | 0 => protocolOk t 0 pending
    | Nat.succ m => protocolOk t m true
  | MapCall.nextValue :: t, n, pending => pending && protocolOk t n false
  | MapCall.nextEntry :: t, n, pending =>
    match n with
    | 0 => protocolOk t 0 pending
    | Nat.succ m => protocolOk t m pending

/-- A concrete Visitor over a pair of naturals that consumes exactly one
element (the key) and then returns it. -/
def takeOneVisitor (p : PairVisitor Nat Nat) : Except DeError Nat × PairVisitor Nat Nat :=
  match p.next_element_seed (fun k => Except.ok k) (fun v => Except.ok v) with
  | (Except.ok (some x), p') => (Except.ok x, p')
  | (Except.ok none, p') => (Except.ok 0, p')
  | (Except.error e, p') => (Except.error e, p')

/-! ## Helper lemmas -/

/-- Consuming `k ≤ |l|` elements with an always-succeeding seed collects the
first `k` decoded items, advances the iterator past them and adds `k` to the
count. -/
lemma consumeN_ok {α β : Type} (f : α → β) (k : Nat) :
    ∀ (l : List α) (c : Nat), k ≤ l.length →
      SeqDeserializer.consumeN (fun x => Except.ok (f x)) k (SeqDeserializer.mk l c) =
        (Except.ok ((l.take k).map f), SeqDeserializer.mk (l.drop k) (c + k)) := by
  induction k with
  | zero => intro l c _; simp [SeqDeserializer.consumeN]
  | succ k ih =>
    intro l c h
    cases l with
    | nil => simp at h
    | cons x xs =>
      have hx : k ≤ xs.length := by simpa using h
      simp only [SeqDeserializer.consumeN, SeqDeserializer.next_element_seed]
      rw [ih xs (c + 1) hx]
      have hc : c + 1 + k = c + (k + 1) := by omega
      rw [hc]
      simp [List.take_succ_cons, List.drop_succ_cons]

/-- The flat view of a pair list has twice its length. -/
lemma flatPairs_length {κ ν : Type} : ∀ l : List (κ × ν), (flatPairs l).length = 2 * l.length
  | [] => rfl
  | (_, _) :: rest => by simp [flatPairs, flatPairs_length rest]; omega

/-- Decoding one pair with the flat-collecting visitor succeeds and yields
key then value. -/
lemma pairFlatSeed_eval {κ ν : Type} (k : κ) (v : ν) :
    pairFlatSeed (PairDeserializer.mk k v) = Except.ok [Sum.inl k, Sum.inr v] := rfl

/-- One-step unfolding of `mapSeqDrain` on positive fuel. -/
lemma mapSeqDrain_succ {κ ν : Type} (fuel : Nat) (s : MapDeserializer κ ν) :
    mapSeqDrain (fuel + 1) s =
      match s.seq_next_element_seed pairFlatSeed with
      | (Except.ok none, s') => (Except.ok [], s')
      | (Except.ok (some xs), s') =>
        match mapSeqDrain fuel s' with
        | (Except.ok rest, s'') => (Except.ok (xs ++ rest), s'')
        | (Except.error e, s'') => (Except.error e, s'')
      | (Except.error e, s') => (Except.error e, s') := rfl

/-- Draining the map adapter's sequence view collects the flat key/value
elements of every pair in order, empties the iterator and adds the pair
count. -/
lemma mapSeqDrain_eval {κ ν : Type} :
    ∀ (l : List (κ × ν)) (val : Option ν) (c : Nat),
      mapSeqDrain (l.length + 1) (MapDeserializer.mk l val c) =
        (Except.ok (flatPairs l), MapDeserializer.mk [] val (c + l.length)) := by
  intro l
  induction l with
  | nil =>
    intro val c
    simp [mapSeqDrain, MapDeserializer.seq_next_element_seed, MapDeserializer.next_pair,
      flatPairs]
  | cons kv rest ih =>
    intro val c
    obtain ⟨k, v⟩ := kv
    show mapSeqDrain (rest.length + 1 + 1) _ = _
    rw [mapSeqDrain_succ]
    simp only [MapDeserializer.seq_next_element_seed, MapDeserializer.next_pair,
      pairFlatSeed_eval]
    rw [ih val (c + 1)]
    have hc : c + 1 + rest.length = c + ((k, v) :: rest).length := by
      simp
      omega
    rw [hc]
    simp [flatPairs]

/-- `PairVisitor::next_element_seed` changes the slots exactly as
`stepState`, independently of the seed's outcome. -/
lemma pairVisitor_next_element_state {α β γ : Type} (p : PairVisitor α β)
    (ks : α → Except DeError γ) (vs : β → Except DeError γ) :
    (p.next_element_seed ks vs).2 = p.stepState := by
  obtain ⟨f, sn⟩ := p
  cases f with
  | some k =>
    cases hk : ks k <;>
      simp [PairVisitor.next_element_seed, PairVisitor.stepState, hk]
  | none =>
    cases sn with
    | some v =>
      cases hv : vs v <;>
        simp [PairVisitor.next_element_seed, PairVisitor.stepState, hv]
    | none => rfl

/-- The slot states reachable from a fresh pair by `next_element_seed`
steps: untouched, key taken, or both taken — the configuration "value taken
but key still present" never occurs. -/
lemma stepState_iterate {α β : Type} (k : α) (v : β) : ∀ n : Nat,
    (PairVisitor.stepState)^[n] (PairVisitor.mk (some k) (some v)) =
        PairVisitor.mk (some k) (some v) ∨
      (PairVisitor.stepState)^[n] (PairVisitor.mk (some k) (some v)) =
        PairVisitor.mk none (some v) ∨
      (PairVisitor.stepState)^[n] (PairVisitor.mk (some k) (some v)) =
        PairVisitor.mk none none := by
  intro n
  induction n with
  | zero => exact Or.inl rfl
  | succ n ih =>
    rw [Function.iterate_succ_apply']
    rcases ih with h | h | h <;> rw [h] <;> simp [PairVisitor.stepState]

/-- `next_entry_seed` never touches the cached-value slot. -/
lemma next_entry_value_eq {κ ν β γ : Type} (s : MapDeserializer κ ν)
    (ks : κ → Except DeError β) (vs : ν → Except DeError γ) :
    ((s.next_entry_seed ks vs).2).value = s.value := by
  obtain ⟨it, val, c⟩ := s
  cases it with
  | nil => rfl
  | cons kv rest =>
    obtain ⟨k, v⟩ := kv
    cases hk : ks k with
    | error e => simp [MapDeserializer.next_entry_seed, MapDeserializer.next_pair, hk]
    | ok b =>
      cases hv : vs v <;>
        simp [MapDeserializer.next_entry_seed, MapDeserializer.next_pair, hk, hv]

/-- After any interleaving of `MapAccess` calls, the cached-value slot is
non-empty exactly when the spec automaton says a key fetch is pending its
value fetch. -/
lemma run_value_isSome {κ ν β γ : Type} (ks : κ → Except DeError β)
    (vs : ν → Except DeError γ) :
    ∀ (t : List MapCall) (s : MapDeserializer κ ν),
      (MapDeserializer.run ks vs t s).value.isSome =
        slotPendingSpec t s.iter.length s.value.isSome := by
  intro t
  induction t with
  | nil => intro s; rfl
  | cons c cs ih =>
    intro s
    obtain ⟨it, val, cnt⟩ := s
    cases c with
    | nextKey =>
      cases it with
      | nil =>
        show (MapDeserializer.run ks vs cs _).value.isSome = _
        have h2 : (MapDeserializer.next_key_seed (MapDeserializer.mk [] val cnt) ks).2 =
            MapDeserializer.mk [] val cnt := rfl
        rw [h2, ih]
        rfl
      | cons kv rest =>
        obtain ⟨k, v⟩ := kv
        show (MapDeserializer.run ks vs cs _).value.isSome = _
        have h2 : (MapDeserializer.next_key_seed
              (MapDeserializer.mk ((k, v) :: rest) val cnt) ks).2 =
            MapDeserializer.mk rest (some v) (cnt + 1) := by
          cases hk : ks k <;>
            simp [MapDeserializer.next_key_seed, MapDeserializer.next_pair, hk]
        rw [h2, ih]
        rfl
    | nextValue =>
      cases val with
      | none =>
        show (MapDeserializer.run ks vs cs _).value.isSome = _
        have h2 : (MapDeserializer.next_value_seed (MapDeserializer.mk it none cnt) vs).2 =
            MapDeserializer.mk it none cnt := rfl
        rw [h2, ih]
        rfl
      | some v =>
        show (MapDeserializer.run ks vs cs _).value.isSome = _
        have h2 : (MapDeserializer.next_value_seed (MapDeserializer.mk it (some v) cnt) vs).2 =
            MapDeserializer.mk it none cnt := by
          cases hv : vs v <;> simp [MapDeserializer.next_value_seed, hv]
        rw [h2, ih]
        rfl
    | nextEntry =>
      cases it with
      | nil =>
        show (MapDeserializer.run ks vs cs _).value.isSome = _
        have h2 : (MapDeserializer.next_entry_seed (MapDeserializer.mk [] val cnt) ks vs).2 =
            MapDeserializer.mk [] val cnt := rfl
        rw [h2, ih]
        rfl
      | cons kv rest =>
        obtain ⟨k, v⟩ := kv
        show (MapDeserializer.run ks vs cs _).value.isSome = _
        have h2 : (MapDeserializer.next_entry_seed
              (MapDeserializer.mk ((k, v) :: rest) val cnt) ks vs).2 =
            MapDeserializer.mk rest val (cnt + 1) := by
          cases hk : ks k with
          | error e => simp [MapDeserializer.next_entry_seed, MapDeserializer.next_pair, hk]
          | ok b =>
            cases hv : vs v <;>
              simp [MapDeserializer.next_entry_seed, MapDeserializer.next_pair, hk, hv]
        rw [h2, ih]
        rfl

/-- Under a protocol-respecting interleaving (every `next_value` finds a
pending value), the run never reaches the abort branch. -/
lemma protocol_no_fatal {κ ν β γ : Type} (ks : κ → Except DeError β)
    (vs : ν → Except DeError γ) :
    ∀ (t : List MapCall) (s : MapDeserializer κ ν),
      protocolOk t s.iter.length s.value.isSome = true →
      (MapDeserializer.runChecked ks vs t s).isSome = true := by
  intro t
  induction t with
  | nil => intro s _; rfl
  | cons c cs ih =>
    intro s hp
    obtain ⟨it, val, cnt⟩ := s
    cases c with
    | nextKey =>
      cases it with
      | nil =>
        show (MapDeserializer.runChecked ks vs cs _).isSome = true
        have h2 : (MapDeserializer.next_key_seed (MapDeserializer.mk [] val cnt) ks).2 =
            MapDeserializer.mk [] val cnt := rfl
        rw [h2]
        exact ih _ hp
      | cons kv rest =>
        obtain ⟨k, v⟩ := kv
        show (MapDeserializer.runChecked ks vs cs _).isSome = true
        have h2 : (MapDeserializer.next_key_seed
              (MapDeserializer.mk ((k, v) :: rest) val cnt) ks).2 =
            MapDeserializer.mk rest (some v) (cnt + 1) := by
          cases hk : ks k <;>
            simp [MapDeserializer.next_key_seed, MapDeserializer.next_pair, hk]
        rw [h2]
        exact ih _ hp
    | nextValue =>
      have hval : val.isSome = true ∧ protocolOk cs it.length false = true := by
        simpa [protocolOk] using hp
      obtain ⟨v, hv⟩ := Option.isSome_iff_exists.mp hval.1
      subst hv
      show (match (MapDeserializer.next_value_seed (MapDeserializer.mk it (some v) cnt) vs).1 with
        | Outcome.fatal _ => none
        | _ => MapDeserializer.runChecked ks vs cs
            (MapDeserializer.next_value_seed (MapDeserializer.mk it (some v) cnt) vs).2).isSome
        = true
      cases hv : vs v with
      | ok b =>
        simp only [MapDeserializer.next_value_seed, hv]
        exact ih _ hval.2
      | error e =>
        simp only [MapDeserializer.next_value_seed, hv]
        exact ih _ hval.2
    | nextEntry =>
      cases it with
      | nil =>
        show (MapDeserializer.runChecked ks vs cs _).isSome = true
        have h2 : (MapDeserializer.next_entry_seed (MapDeserializer.mk [] val cnt) ks vs).2 =
            MapDeserializer.mk [] val cnt := rfl
        rw [h2]
        exact ih _ hp
      | cons kv rest =>
        obtain ⟨k, v⟩ := kv
        show (MapDeserializer.runChecked ks vs cs _).isSome = true
        have h2 : (MapDeserializer.next_entry_seed
              (MapDeserializer.mk ((k, v) :: rest) val cnt) ks vs).2 =
            MapDeserializer.mk rest val (cnt + 1) := by
          cases hk : ks k with
          | error e => simp [MapDeserializer.next_entry_seed, MapDeserializer.next_pair, hk]
          | ok b =>
            cases hv : vs v <;>
              simp [MapDeserializer.next_entry_seed, MapDeserializer.next_pair, hk, hv]
        rw [h2]
        exact ih _ hp

/-! ## Claim theorems -/

/-- C1 counterexample: decoding the pair `(0, 1)` as a sequence with a
visitor that takes exactly one element (leaving the value slot untaken)
fails with `invalid_length` whose actual length is 2 and whose
expected-length description is "1 element in sequence" — not, as the claim
states, expected length 2 and actual length 1. -/
theorem pair_seq_one_untaken_counterexample :
    PairDeserializer.deserialize_seq (PairDeserializer.mk 0 1) takeOneVisitor =
      Except.error (DeError.invalidLength 2 "1 element in sequence") ∧
    PairDeserializer.deserialize_seq (PairDeserializer.mk 0 1) takeOneVisitor ≠
      Except.error (DeError.invalidLength 1 "2 elements in sequence") := by
  refine ⟨rfl, ?_⟩
  intro h
  rw [show PairDeserializer.deserialize_seq (PairDeserializer.mk 0 1) takeOneVisitor =
      Except.error (DeError.invalidLength 2 "1 element in sequence") from rfl] at h
  simp at h

/-- C1 (amended): for every pair, if after the visitor returns exactly one
of the two slots remains untaken (necessarily the value slot, the only such
configuration reachable through `next_element_seed`), `deserialize_seq`
fails with an invalid-length error whose actual length is 2 and whose
expected-length description is "1 element in sequence" (i.e. actual 2,
expected 1). -/
theorem pair_seq_one_untaken {α β γ : Type} (k : α) (v : β)
    (vr : PairVisitor α β → Except DeError γ × PairVisitor α β)
    (pair : γ) (pv' : PairVisitor α β)
    (hrun : vr (PairVisitor.mk (some k) (some v)) = (Except.ok pair, pv'))
    (hreach : ∃ n, (PairVisitor.stepState)^[n] (PairVisitor.mk (some k) (some v)) = pv')
    (hone : (pv'.fst.isNone ∧ pv'.snd.isSome) ∨ (pv'.fst.isSome ∧ pv'.snd.isNone)) :
    PairDeserializer.deserialize_seq (PairDeserializer.mk k v) vr =
      Except.error (DeError.invalidLength 2 "1 element in sequence") := by
  obtain ⟨n, hn⟩ := hreach
  have h3 := stepState_iterate k v n
  rw [hn] at h3
  unfold PairDeserializer.deserialize_seq
  simp only [hrun]
  rcases h3 with h | h | h <;> subst h <;>
    simp_all [PairVisitor.size_hint, ExpectedInSeq.fmt]

/-- Witness for C1 (amended) at the concrete pair `(0, 1)` and the
one-element visitor. -/
theorem pair_seq_one_untaken_witness :
    takeOneVisitor (PairVisitor.mk (some 0) (some 1)) =
      (Except.ok 0, PairVisitor.mk none (some 1)) ∧
    PairDeserializer.deserialize_seq (PairDeserializer.mk 0 1) takeOneVisitor =
      Except.error (DeError.invalidLength 2 "1 element in sequence") :=
  ⟨rfl, pair_seq_one_untaken 0 1 takeOneVisitor 0 (PairVisitor.mk none (some 1))
    rfl ⟨1, rfl⟩ (Or.inl (by simp))⟩

/-- C2: for every finite iterator, a visitor that consumes `c` elements with
`c` smaller than the iterator's length makes the end check fail with an
invalid-length error whose actual length is the total element count and
whose expected-length description reports `c`, pluralized as
"1 element in sequence" for one and "c elements in sequence" otherwise. -/
theorem seq_end_check_short_consumption {α β : Type} (l : List α) (f : α → β) (c : Nat)
    (h : c < l.length) :
    SeqDeserializer.deserialize_any (SeqDeserializer.new l)
      (fun s => SeqDeserializer.consumeN (fun x => Except.ok (f x)) c s) =
      Except.error (DeError.invalidLength l.length
        (if c = 1 then "1 element in sequence"
         else toString c ++ " elements in sequence")) := by
  unfold SeqDeserializer.deserialize_any SeqDeserializer.new
  simp only [consumeN_ok f c l 0 (Nat.le_of_lt h)]
  have hrem : (l.drop c).length = l.length - c := List.length_drop c l
  have hne : l.length - c ≠ 0 := by omega
  have htot : 0 + c + (l.length - c) = l.length := by omega
  simp only [SeqDeserializer.«end», hrem, if_neg hne, Nat.zero_add, ExpectedInSeq.fmt]
  rw [show c + (l.length - c) = l.length from by omega]

/-- Witness for C2: `[10, 20, 30]` with one element consumed (singular
wording) and with two consumed (plural wording). -/
theorem seq_end_check_short_consumption_witness :
    (SeqDeserializer.deserialize_any (SeqDeserializer.new [10, 20, 30])
        (fun s => SeqDeserializer.consumeN (fun x => Except.ok x) 1 s) =
      Except.error (DeError.invalidLength 3 "1 element in sequence")) ∧
    (SeqDeserializer.deserialize_any (SeqDeserializer.new [10, 20, 30])
        (fun s => SeqDeserializer.consumeN (fun x => Except.ok x) 2 s) =
      Except.error (DeError.invalidLength 3 "2 elements in sequence")) :=
  ⟨by simpa using seq_end_check_short_consumption [10, 20, 30] (fun x => x) 1 (by decide),
   by simpa using seq_end_check_short_consumption [10, 20, 30] (fun x => x) 2 (by decide)⟩

/-- C3: decoding any finite key/value list in sequence mode presents exactly
`2 * len` flat elements to the visitor, in key, value, key, value, ...
order, and the end check passes. -/
theorem map_seq_mode_flat_elements {κ ν : Type} (l : List (κ × ν)) :
    MapDeserializer.deserialize_seq (MapDeserializer.new l) (mapSeqDrain (l.length + 1)) =
      Except.ok (flatPairs l) ∧
    (flatPairs l).length = 2 * l.length := by
  constructor
  · unfold MapDeserializer.deserialize_seq MapDeserializer.new
    rw [mapSeqDrain_eval]
    rfl
  · exact flatPairs_length l

/-- C4: fetching a value with an empty slot is a fatal abort carrying the
diagnostic "MapAccess::visit_value called before visit_key", never a
recoverable error value; and every key-before-value interleaving (each
`next_value` finds a pending value) never reaches the abort branch. -/
theorem map_next_value_fatal_contract :
    (∀ (κ ν γ : Type) (s : MapDeserializer κ ν) (vs : ν → Except DeError γ),
      s.value = none →
      (s.next_value_seed vs).1 =
        Outcome.fatal "MapAccess::visit_value called before visit_key" ∧
      ∀ e, (s.next_value_seed vs).1 ≠ Outcome.err e) ∧
    (∀ (κ ν β γ : Type) (l : List (κ × ν)) (ks : κ → Except DeError β)
      (vs : ν → Except DeError γ) (t : List MapCall),
      protocolOk t l.length false = true →
      (MapDeserializer.runChecked ks vs t (MapDeserializer.new l)).isSome = true) := by
  constructor
  · intro κ ν γ s vs hnone
    obtain ⟨it, val, cnt⟩ := s
    subst hnone
    exact ⟨rfl, fun e h => by simp [MapDeserializer.next_value_seed] at h⟩
  · intro κ ν β γ l ks vs t hp
    exact protocol_no_fatal ks vs t (MapDeserializer.new l) hp

/-- Witness for C4: a one-pair map — `next_value` with the fresh (empty)
slot aborts with the diagnostic, and the trace `next_key; next_value`
respects the protocol and never aborts. -/
theorem map_next_value_fatal_contract_witness :
    ((MapDeserializer.new [(5, 6)] : MapDeserializer Nat Nat).value = none ∧
      ((MapDeserializer.new [(5, 6)] : MapDeserializer Nat Nat).next_value_seed
          (fun v => (Except.ok v : Except DeError Nat))).1 =
        Outcome.fatal "MapAccess::visit_value called before visit_key") ∧
    (protocolOk [MapCall.nextKey, MapCall.nextValue] [(5, 6)].length false = true ∧
      (MapDeserializer.runChecked (fun k => (Except.ok k : Except DeError Nat))
          (fun v => (Except.ok v : Except DeError Nat))
          [MapCall.nextKey, MapCall.nextValue]
          (MapDeserializer.new [(5, 6)])).isSome = true) :=
  ⟨⟨rfl, (map_next_value_fatal_contract.1 Nat Nat Nat (MapDeserializer.new [(5, 6)])
      (fun v => Except.ok v) rfl).1⟩,
   ⟨rfl, map_next_value_fatal_contract.2 Nat Nat Nat Nat [(5, 6)]
      (fun k => Except.ok k) (fun v => Except.ok v)
      [MapCall.nextKey, MapCall.nextValue] rfl⟩⟩

/-- C5 counterexample: on the map `[(0, 1), (2, 3)]`, after the interleaving
`next_key; next_entry` the cached-value slot still holds the first pair's
value — it is not empty around the `next_entry` call, refuting the claim's
parenthetical for arbitrary interleavings. -/
theorem map_value_slot_counterexample :
    (MapDeserializer.run (fun k : Nat => (Except.ok k : Except DeError Nat))
        (fun v : Nat => (Except.ok v : Except DeError Nat))
        [MapCall.nextKey, MapCall.nextEntry]
        (MapDeserializer.new [(0, 1), (2, 3)])).value = some 1 ∧
    (MapDeserializer.run (fun k : Nat => (Except.ok k : Except DeError Nat))
        (fun v : Nat => (Except.ok v : Except DeError Nat))
        [MapCall.nextKey, MapCall.nextEntry]
        (MapDeserializer.new [(0, 1), (2, 3)])).value ≠ none := by
  refine ⟨rfl, ?_⟩
  intro h
  rw [show (MapDeserializer.run (fun k : Nat => (Except.ok k : Except DeError Nat))
      (fun v : Nat => (Except.ok v : Except DeError Nat))
      [MapCall.nextKey, MapCall.nextEntry]
      (MapDeserializer.new [(0, 1), (2, 3)])).value = some 1 from rfl] at h
  simp at h

/-- C5 (amended): for every map adapter and every interleaving of
`next_key`, `next_value` and `next_entry`, the cached-value slot is
non-empty exactly while a pair fetched by `next_key` awaits its value fetch
(empty initially and after each value fetch); `next_entry` never modifies
the slot, so the slot need not be empty around a `next_entry` call. -/
theorem map_value_slot_invariant {κ ν β γ : Type} (l : List (κ × ν))
    (ks : κ → Except DeError β) (vs : ν → Except DeError γ) (t : List MapCall) :
    ((MapDeserializer.run ks vs t (MapDeserializer.new l)).value.isSome =
      slotPendingSpec t l.length false) ∧
    (∀ s : MapDeserializer κ ν, ((s.next_entry_seed ks vs).2).value = s.value) := by
  constructor
  · simpa [MapDeserializer.new] using run_value_isSome ks vs t (MapDeserializer.new l)
  · exact fun s => next_entry_value_eq s ks vs

/-- C6: decoding any finite iterator of convertible items with a visitor
that consumes exactly `len` elements, every element decode succeeding,
returns the visitor's value and the end check raises no error. -/
theorem seq_exact_consumption_ok {α β : Type} (l : List α) (f : α → β) :
    SeqDeserializer.deserialize_any (SeqDeserializer.new l)
      (fun s => SeqDeserializer.consumeN (fun x => Except.ok (f x)) l.length s) =
      Except.ok (l.map f) := by
  unfold SeqDeserializer.deserialize_any SeqDeserializer.new
  simp only [consumeN_ok f l.length l 0 (Nat.le_refl _)]
  simp [SeqDeserializer.«end», List.drop_length, List.take_length]

/-- C7: the unit-only variant access decodes a unit variant successfully and
rejects newtype, tuple and struct payloads with an invalid-type error whose
unexpected kind is the unit variant (rendered "unit variant") and whose
expected kind names the requested payload kind. -/
theorem unit_only_variant_access :
    ∀ (σ τ γ : Type) (u : UnitOnly) (seed : σ) (len : Nat) (vis : τ)
      (fields : List String),
    u.deserialize_unit = Except.ok () ∧
    (UnitOnly.deserialize_newtype_seed u seed : Except DeError γ) =
      Except.error (DeError.invalidType Unexpected.unitVariant "newtype variant") ∧
    (UnitOnly.deserialize_tuple u len vis : Except DeError γ) =
      Except.error (DeError.invalidType Unexpected.unitVariant "tuple variant") ∧
    (UnitOnly.deserialize_struct u fields vis : Except DeError γ) =
      Except.error (DeError.invalidType Unexpected.unitVariant "struct variant") ∧
    Unexpected.fmt Unexpected.unitVariant = "unit variant" := by
  intro σ τ γ u seed len vis fields
  exact ⟨rfl, rfl, rfl, rfl, rfl⟩

/-- C8: `deserialize_seq_fixed_size` on a pair proceeds exactly as
`deserialize_seq` when the requested length is 2, and for any other length
fails with an invalid-length error — for every visitor, which is never
invoked, so neither slot is consumed. -/
theorem pair_fixed_size_length_check {α β γ : Type} (d : PairDeserializer α β) (len : Nat)
    (vr : PairVisitor α β → Except DeError γ × PairVisitor α β) :
    (len = 2 → d.deserialize_seq_fixed_size len vr = d.deserialize_seq vr) ∧
    (len ≠ 2 → d.deserialize_seq_fixed_size len vr =
      Except.error (DeError.invalidLength 2
        (if len = 1 then "1 element in sequence"
         else toString len ++ " elements in sequence"))) := by
  constructor
  · intro h
    subst h
    rfl
  · intro h
    unfold PairDeserializer.deserialize_seq_fixed_size
    rw [if_neg h]
    simp [ExpectedInSeq.fmt]

/-- Witness for C8 on the pair `(0, 1)`: length 2 delegates, length 3 fails
with "invalid length 2, expected 3 elements in sequence". -/
theorem pair_fixed_size_length_check_witness :
    PairDeserializer.deserialize_seq_fixed_size (PairDeserializer.mk 0 1) 2 takeOneVisitor =
      PairDeserializer.deserialize_seq (PairDeserializer.mk 0 1) takeOneVisitor ∧
    PairDeserializer.deserialize_seq_fixed_size (PairDeserializer.mk 0 1) 3 takeOneVisitor =
      Except.error (DeError.invalidLength 2 "3 elements in sequence") :=
  ⟨(pair_fixed_size_length_check (PairDeserializer.mk 0 1) 2 takeOneVisitor).1 rfl,
   by simpa using
     (pair_fixed_size_length_check (PairDeserializer.mk 0 1) 3 takeOneVisitor).2
       (by decide)⟩

/-- C9: in the full-capability build, the minimal error constructed from a
displayable message renders that message back verbatim. -/
theorem error_custom_display_roundtrip (m : String) :
    (Error.custom m).display = m := rfl

/-- C10: with at least one pair remaining, `next_key` first consumes the
pair and caches its value; a failing key decode propagates the error while
the iterator has advanced, the count is incremented and the value stays
cached — the operation is not atomic on error. -/
theorem map_next_key_error_state {κ ν β : Type} (k : κ) (v : ν)
    (rest : List (κ × ν)) (val : Option ν) (c : Nat)
    (ks : κ → Except DeError β) (e : DeError)
    (h : ks k = Except.error e) :
    MapDeserializer.next_key_seed (MapDeserializer.mk ((k, v) :: rest) val c) ks =
      (Except.error e, MapDeserializer.mk rest (some v) (c + 1)) := by
  simp [MapDeserializer.next_key_seed, MapDeserializer.next_pair, h]

/-- Witness for C10: a one-pair map whose key decode fails. -/
theorem map_next_key_error_state_witness :
    ((fun _ : Nat => (Except.error (DeError.custom "boom") : Except DeError Nat)) 7 =
      Except.error (DeError.custom "boom")) ∧
    MapDeserializer.next_key_seed (MapDeserializer.mk [(7, 8)] none 0)
        (fun _ : Nat => (Except.error (DeError.custom "boom") : Except DeError Nat)) =
      (Except.error (DeError.custom "boom"), MapDeserializer.mk [] (some 8) 1) :=
  ⟨rfl, map_next_key_error_state 7 8 [] none 0
    (fun _ => Except.error (DeError.custom "boom")) (DeError.custom "boom") rfl⟩

end SerdeDeValue
